import Mathlib

/-!
Verification of the `ksysoev/go-workshops` repository against its
natural-language specification.

The repository consists of Go workshop snippets: an error-handling exercise
file duplicated in two packages (`package main` in `main_test.go` and
`package errorhandling`), and a concurrency exercise file
(`concurrency/concurrency_test.go`) containing a toy `NumberIterator`
(channel-of-channels pattern) and a toy `RateLimiter` built on an
`atomic.Int32` counter.

Shallow embedding conventions:
* Go `int32` / `int` values are modelled as `Int` with explicit two's
  complement wraparound (`wrap32`, `wrap64`) applied wherever the Go
  program performs arithmetic on a fixed-width integer (`atomic.Int32.Add`,
  `counter++`).  Go `int` is 64 bits wide on the platforms the workshop
  targets.
* Go strings are byte strings (`len` counts bytes), modelled as `List UInt8`.
* Go `error` results are `Option GoError`, `nil` being `none`.
* A Go function that can fault at runtime (integer division by zero panics)
  returns `Exec`.
* The event loops spawned as goroutines (`NumberIterator.Run`,
  `RateLimiter.bucketRefiller`) are embedded as functions consuming the
  sequence of resolved `select` branches: each list element records which
  ready branch the `select` statement committed to at that iteration.
-/

set_option autoImplicit false
set_option linter.unusedVariables false

namespace GoWorkshops

/-- Two's complement wraparound of an `Int` into the `int32` range. -/
def wrap32 (x : Int) : Int :=
  (x + 2147483648) % 4294967296 - 2147483648

/-- Two's complement wraparound of an `Int` into the `int64` range. -/
def wrap64 (x : Int) : Int :=
  (x + 9223372036854775808) % 18446744073709551616 - 9223372036854775808

/-- A Go `error` value, as produced by the functions of this repository. -/
inductive GoError where
  | errorsNew (msg : String) : GoError
  | errorf (msg : String) : GoError
  | contextCanceled : GoError
deriving DecidableEq, Repr

/-- Outcome of running a Go function body: normal return or a runtime panic. -/
inductive Exec (α : Type) where
  | ok (val : α) : Exec α
  | panicked (msg : String) : Exec α
deriving DecidableEq, Repr

/-- A Go string; `len` on a Go string counts bytes. -/
abbrev GoString := List UInt8

/-- Go built-in `len` on strings (byte length). -/
def golen (s : GoString) : Nat := s.length

namespace main

/-- Embedding of `ValidatePasswordLen` from `src/main_test.go` lines 35-37:
the body is literally `return nil`. -/
def ValidatePasswordLen (password : GoString) : Option GoError :=
  none

/-- Embedding of `Divide` from `src/main_test.go` lines 58-60: the body is
`return a / b, nil`.  Go division truncates toward zero (`Int.tdiv`), panics
when the divisor is zero, and wraps on the single overflowing case
`math.MinInt64 / -1`. -/
def Divide (a b : Int) : Exec (Int × Option GoError) :=
  if b = 0 then
    Exec.panicked ("runtime error: integer divide by zero")
  else
    Exec.ok (wrap64 (Int.tdiv a b), none)

/-- Embedding of `ValidateField` from `src/main_test.go` lines 121-127. -/
def ValidateField (field value : GoString) : Option GoError :=
  if golen value > 10 then
    some (GoError.errorf ("value is too long"))
  else
    none

end main

namespace errorhandling

/-- Embedding of `ValidatePasswordLen` from `src/unnamed/part_001` lines 37-39
(`package errorhandling`): the body is literally `return nil`. -/
def ValidatePasswordLen (password : GoString) : Option GoError :=
  none

/-- Embedding of `Divide` from `src/unnamed/part_001` lines 60-62: the body is
`return a / b, nil`, identical to the `package main` copy. -/
def Divide (a b : Int) : Exec (Int × Option GoError) :=
  if b = 0 then
    Exec.panicked ("runtime error: integer divide by zero")
  else
    Exec.ok (wrap64 (Int.tdiv a b), none)

/-- Embedding of `ValidateField` from `src/unnamed/part_001` lines 123-129. -/
def ValidateField (field value : GoString) : Option GoError :=
  if golen value > 10 then
    some (GoError.errorf ("value is too long"))
  else
    none

end errorhandling

namespace concurrency

/-- A Go `context.Context` as used by this repository: only cancellation is
observable. -/
structure GoContext where
  canceled : Bool
deriving DecidableEq, Repr

/-- The `ctx.Err()` of a context: `context.Canceled` once canceled. -/
def GoContext.err (ctx : GoContext) : Option GoError :=
  if ctx.canceled then some GoError.contextCanceled else none

/-- An operation on a Go channel. -/
inductive ChanOp where
  | send (v : Int) : ChanOp
  | receive : ChanOp
deriving DecidableEq, Repr

/-- Embedding of the `NumberIterator` struct from
`src/concurrency/concurrency_test.go` lines 182-185.  The `requests` channel
has no observable state of its own; the context is the only datum. -/
structure NumberIterator where
  ctx : GoContext
deriving DecidableEq, Repr

/-- Embedding of `NewNumberIterator` (lines 187-192). -/
def NewNumberIterator (ctx : GoContext) : NumberIterator :=
  { ctx := ctx }

/-- Embedding of `NumberIterator.Next` (lines 194-196).  The body is literally
`return 0, nil`: it ignores the receiver and the context argument and performs
no channel operation, so the returned value is paired with the (empty) list of
channel operations the body executes. -/
def NumberIterator.Next (ni : NumberIterator) (ctx : GoContext) :
    (Int × Option GoError) × List ChanOp :=
  ((0, none), [])

/-- A resolved `select` branch of the `NumberIterator.Run` loop
(lines 198-212): either a request was received from `ni.requests`, or
`ni.ctx.Done()` fired. -/
inductive NIEvent where
  | request : NIEvent
  | ctxDone : NIEvent
deriving DecidableEq, Repr

/-- One execution of the `NumberIterator.Run` loop body per list element,
starting from counter value `counter` (a Go `int`, 64-bit).  Returns the
responses sent on the request response channels, the final counter value, and
whether the loop returned via the `ctx.Done()` branch.  A `request` event
increments the counter and sends it; a `ctxDone` event returns immediately,
after which nothing further happens. -/
def RunAux (counter : Int) : List NIEvent → List Int × Int × Bool
  | [] => ([], counter, false)
  | NIEvent.request :: rest =>
    let c := wrap64 (counter + 1)
    let r := RunAux c rest
    (c :: r.1, r.2)
  | NIEvent.ctxDone :: rest => ([], counter, true)

/-- Embedding of `NumberIterator.Run` (lines 198-212): the loop starts with
`counter := 0`. -/
def Run (evs : List NIEvent) : List Int × Int × Bool :=
  RunAux 0 evs

/-- Number of requests the `Run` loop services on a given event sequence:
those arriving before the first `ctxDone` resolution. -/
def served (evs : List NIEvent) : Nat :=
  (evs.takeWhile (fun e => e = NIEvent.request)).length

/-- Embedding of the `RateLimiter` struct
(`src/concurrency/concurrency_test.go` lines 322-327) together with the
process state of its goroutines: `counter` is the `atomic.Int32`,
`canceled` records whether the limiter's cancelable context has been
canceled, and `refillerRunning` records whether a `go r.bucketRefiller()`
statement was ever executed (no statement of the repository spawns it). -/
structure RateLimiter where
  capacity : Int
  counter : Int
  canceled : Bool
  refillerRunning : Bool
deriving DecidableEq, Repr

/-- Embedding of `NewRateLimiter` (lines 329-338): fresh zero counter, fresh
uncanceled context derived via `context.WithCancel`; the body contains no `go`
statement. -/
def NewRateLimiter (capacity : Int) : RateLimiter :=
  { capacity := capacity, counter := 0, canceled := false, refillerRunning := false }

/-- Embedding of `RateLimiter.Allow` (lines 340-342):
`return r.counter.Add(1) <= r.capacity`.  `atomic.Int32.Add` wraps in two's
complement. -/
def RateLimiter.Allow (r : RateLimiter) : Bool × RateLimiter :=
  let c := wrap32 (r.counter + 1)
  (decide (c ≤ r.capacity), { r with counter := c })

/-- Embedding of `RateLimiter.Close` (lines 344-346): `r.cancel()`. -/
def RateLimiter.Close (r : RateLimiter) : RateLimiter :=
  { r with canceled := true }

/-- The operations exported by `RateLimiter` and used by the repository. -/
inductive RLOp where
  | allow : RLOp
  | close : RLOp
deriving DecidableEq, Repr

/-- Application of a sequence of `RateLimiter` operations. -/
def applyOps (r : RateLimiter) : List RLOp → RateLimiter
  | [] => r
  | RLOp.allow :: rest => applyOps (r.Allow).2 rest
  | RLOp.close :: rest => applyOps r.Close rest

/-- Iterated `Allow`: the state after `n` sequential calls. -/
def allowN (r : RateLimiter) : Nat → RateLimiter
  | 0 => r
  | n + 1 => allowN (r.Allow).2 n

/-- Result of the `k`-th sequential call (`k ≥ 1`) to `Allow` on a rate
limiter freshly created with capacity `c`. -/
def nthAllowResult (c : Int) (k : Nat) : Bool :=
  ((allowN (NewRateLimiter c) (k - 1)).Allow).1

/-- A resolved `select` branch of the `RateLimiter.bucketRefiller` loop
(lines 348-360): either `r.ctx.Done()` fired or the 1 ms ticker fired. -/
inductive RefEvent where
  | ctxDone : RefEvent
  | tick : RefEvent
deriving DecidableEq, Repr

/-- Embedding of `RateLimiter.bucketRefiller` (lines 348-360), one loop
iteration per event: a tick stores 0 into the counter, `ctx.Done()` returns.
The result is the counter value when the loop stops processing events and
whether it returned via the `ctx.Done()` branch. -/
def bucketRefiller (counter : Int) : List RefEvent → Int × Bool
  | [] => (counter, false)
  | RefEvent.ctxDone :: rest => (counter, true)
  | RefEvent.tick :: rest => bucketRefiller 0 rest

/-- An action performed by a goroutine body in the fork-join test. -/
inductive GoAction where
  | log (msg : String) : GoAction
  | closeDone : GoAction
deriving DecidableEq, Repr

/-- The body of the child goroutine of `TestForkJoin`
(`src/concurrency/concurrency_test.go` lines 31-33): it only logs; no
statement closes the `done` channel. -/
def forkJoinChild : List GoAction :=
  [GoAction.log ("Child goroutine")]

/-- Whether a goroutine body ever closes the `done` channel. -/
def closesDone (body : List GoAction) : Bool :=
  body.contains GoAction.closeDone

/-- Outcome of the `select` in `TestForkJoin` (lines 37-42): the receive from
`done` completes only if `done` is ever closed; otherwise the
`time.After(time.Millisecond)` branch fires and the test calls `t.Errorf`. -/
inductive SelectOutcome where
  | doneReceived : SelectOutcome
  | timedOut : SelectOutcome
deriving DecidableEq, Repr

/-- Resolution of the `TestForkJoin` select, given whether the child ever
closes `done`. -/
def forkJoinSelect (doneClosed : Bool) : SelectOutcome :=
  if doneClosed then SelectOutcome.doneReceived else SelectOutcome.timedOut

/-- Embedding of `TestForkJoin` (lines 28-43): the select outcome of the test
as written. -/
def TestForkJoin : SelectOutcome :=
  forkJoinSelect (closesDone forkJoinChild)

/-- Number of `allow` operations in a sequence of rate limiter operations. -/
def countAllows : List RLOp → Nat
  | [] => 0
  | RLOp.allow :: rest => countAllows rest + 1
  | RLOp.close :: rest => countAllows rest

end concurrency

theorem wrap32_add_left (x y : Int) : wrap32 (wrap32 x + y) = wrap32 (x + y) := by
  unfold wrap32
  omega

theorem wrap32_eq_self (x : Int) (h1 : -2147483648 ≤ x) (h2 : x < 2147483648) :
    wrap32 x = x := by
  unfold wrap32
  omega

theorem wrap64_add_left (x y : Int) : wrap64 (wrap64 x + y) = wrap64 (x + y) := by
  unfold wrap64
  omega

theorem wrap64_eq_self (x : Int) (h1 : -9223372036854775808 ≤ x)
    (h2 : x < 9223372036854775808) : wrap64 x = x := by
  unfold wrap64
  omega

namespace concurrency

theorem Allow_fst (r : RateLimiter) :
    (r.Allow).1 = decide (wrap32 (r.counter + 1) ≤ r.capacity) := rfl

theorem Allow_snd_counter (r : RateLimiter) :
    ((r.Allow).2).counter = wrap32 (r.counter + 1) := rfl

theorem Allow_snd_capacity (r : RateLimiter) :
    ((r.Allow).2).capacity = r.capacity := rfl

theorem allowN_capacity (r : RateLimiter) (n : Nat) :
    (allowN r n).capacity = r.capacity := by
  induction n generalizing r with
  | zero => rfl
  | succ n ih => rw [allowN, ih, Allow_snd_capacity]

theorem allowN_counter (m : Int) (r : RateLimiter) (n : Nat) (h : r.counter = wrap32 m) :
    (allowN r n).counter = wrap32 (m + n) := by
  induction n generalizing r m with
  | zero => rw [allowN, h]; norm_num
  | succ n ih =>
    rw [allowN, ih (m + 1) _ (by rw [Allow_snd_counter, h, wrap32_add_left])]
    congr 1
    push_cast
    ring

theorem counter_NewRateLimiter (c : Int) : (NewRateLimiter c).counter = wrap32 0 := by
  unfold NewRateLimiter wrap32
  norm_num

theorem nthAllowResult_eq (c : Int) (k : Nat) (hk : 1 ≤ k) :
    nthAllowResult c k = decide (wrap32 (k : Int) ≤ c) := by
  unfold nthAllowResult
  rw [Allow_fst, allowN_capacity,
    allowN_counter 0 _ _ (counter_NewRateLimiter c), wrap32_add_left]
  have harg : (0 : Int) + ((k - 1 : Nat) : Int) + 1 = (k : Int) := by omega
  rw [harg]
  rfl

theorem applyOps_refillerRunning (r : RateLimiter) (ops : List RLOp) :
    (applyOps r ops).refillerRunning = r.refillerRunning := by
  induction ops generalizing r with
  | nil => rfl
  | cons o rest ih =>
    cases o with
    | allow => rw [applyOps, ih]; rfl
    | close => rw [applyOps, ih]; rfl

theorem applyOps_canceled_of (r : RateLimiter) (ops : List RLOp) (h : r.canceled = true) :
    (applyOps r ops).canceled = true := by
  induction ops generalizing r with
  | nil => exact h
  | cons o rest ih =>
    cases o with
    | allow => rw [applyOps]; exact ih _ h
    | close => rw [applyOps]; exact ih _ rfl

theorem applyOps_counter (m : Int) (r : RateLimiter) (ops : List RLOp)
    (h : r.counter = wrap32 m) :
    (applyOps r ops).counter = wrap32 (m + countAllows ops) := by
  induction ops generalizing r m with
  | nil => rw [applyOps, h, countAllows]; norm_num
  | cons o rest ih =>
    cases o with
    | allow =>
      rw [applyOps, ih (m + 1) _ (by rw [Allow_snd_counter, h, wrap32_add_left]),
        countAllows]
      congr 1
      push_cast
      ring
    | close =>
      rw [applyOps, countAllows]
      exact ih m r.Close h

theorem RunAux_responses (c : Int) (evs : List NIEvent) :
    (RunAux c evs).1 =
      (List.range (served evs)).map (fun j : Nat => wrap64 (c + (j : Int) + 1)) := by
  induction evs generalizing c with
  | nil => simp [RunAux, served]
  | cons e rest ih =>
    cases e with
    | request =>
      have hserved : served (NIEvent.request :: rest) = served rest + 1 := by
        simp [served, List.takeWhile]
      rw [RunAux, hserved, List.range_succ_eq_map, List.map_cons, List.map_map]
      show wrap64 (c + 1) :: (RunAux (wrap64 (c + 1)) rest).1 =
        wrap64 (c + ((0 : Nat) : Int) + 1) ::
          (List.range (served rest)).map
            ((fun j : Nat => wrap64 (c + (j : Int) + 1)) ∘ Nat.succ)
      have harg : c + ((0 : Nat) : Int) + 1 = c + 1 := by norm_num
      rw [harg]
      congr 1
      rw [ih (wrap64 (c + 1))]
      apply List.map_congr_left
      intro j hj
      show wrap64 (wrap64 (c + 1) + (j : Int) + 1) = wrap64 (c + ((j + 1 : Nat) : Int) + 1)
      have hshift : wrap64 (c + 1) + (j : Int) + 1 = wrap64 (c + 1) + ((j : Int) + 1) := by
        ring
      rw [hshift, wrap64_add_left]
      congr 1
      push_cast
      ring
    | ctxDone =>
      have hserved : served (NIEvent.ctxDone :: rest) = 0 := by
        simp [served, List.takeWhile]
      rw [RunAux, hserved]
      simp

theorem RunAux_returned_of_mem (c : Int) (evs : List NIEvent)
    (h : NIEvent.ctxDone ∈ evs) :
    (RunAux c evs).2.2 = true := by
  induction evs generalizing c with
  | nil => cases h
  | cons e rest ih =>
    cases e with
    | request =>
      have hmem : NIEvent.ctxDone ∈ rest := by
        cases h with
        | tail _ hm => exact hm
      rw [RunAux]
      exact ih _ hmem
    | ctxDone => rfl

theorem served_replicate (n : Nat) :
    served (List.replicate n NIEvent.request) = n := by
  induction n with
  | zero => rfl
  | succ n ih =>
    rw [List.replicate_succ]
    have : served (NIEvent.request :: List.replicate n NIEvent.request) =
        served (List.replicate n NIEvent.request) + 1 := by
      simp [served, List.takeWhile]
    rw [this, ih]

theorem Run_nth_response (evs : List NIEvent) (k : Nat) (hk : 1 ≤ k)
    (hs : k ≤ served evs) :
    ((Run evs).1)[k - 1]? = some (wrap64 (k : Int)) := by
  rw [Run, RunAux_responses, List.getElem?_map]
  have hlt : k - 1 < served evs := by omega
  rw [List.getElem?_range hlt]
  have harg : (0 : Int) + ((k - 1 : Nat) : Int) + 1 = (k : Int) := by omega
  simp only [Option.map_some']
  rw [harg]

/-- C1 counterexample: the claim "every subsequent call returns false until
the counter is reset to 0" is false as stated.  On a fresh `RateLimiter` of
capacity 3 the counter is never reset, yet the 2147483648-th (2^31-th)
sequential call to `Allow` returns true, because `atomic.Int32.Add` wraps the
counter to -2^31 at that call. -/
theorem rateLimiter_wraparound_counterexample :
    (3 : Int) < 2147483648 ∧ nthAllowResult 3 2147483648 = true := by
  constructor
  · norm_num
  · rw [nthAllowResult_eq 3 2147483648 (by norm_num)]
    decide

/-- C1 (amended): for a `RateLimiter` freshly created by `NewRateLimiter`
with capacity `c` (0 ≤ c < 2^31), each call to `Allow` replaces the `int32`
counter by its two's complement increment and returns true iff the
incremented counter is ≤ c; hence the k-th sequential call returns true for
1 ≤ k ≤ c and false for c < k < 2^31 (the int32 counter wraps at the 2^31-th
call, so the claim's unbounded "every subsequent call returns false" must be
restricted to the calls made before the counter overflows). -/
theorem rateLimiter_capacity_enforced (c : Int) (k : Nat)
    (hc0 : 0 ≤ c) (hc : c < 2147483648) (hk : 1 ≤ k) :
    (∀ r : RateLimiter,
      (r.Allow).1 = decide (wrap32 (r.counter + 1) ≤ r.capacity) ∧
      ((r.Allow).2).counter = wrap32 (r.counter + 1)) ∧
    ((k : Int) ≤ c → nthAllowResult c k = true) ∧
    (c < (k : Int) → (k : Int) < 2147483648 → nthAllowResult c k = false) := by
  refine ⟨fun r => ⟨Allow_fst r, Allow_snd_counter r⟩, ?_, ?_⟩
  · intro hkc
    rw [nthAllowResult_eq c k hk, wrap32_eq_self (k : Int) (by omega) (by omega)]
    exact decide_eq_true hkc
  · intro hck hk32
    rw [nthAllowResult_eq c k hk, wrap32_eq_self (k : Int) (by omega) (by omega)]
    exact decide_eq_false (by omega)

theorem rateLimiter_capacity_enforced_witness :
    ((0 : Int) ≤ 3 ∧ (3 : Int) < 2147483648 ∧ (1 : Nat) ≤ 2) ∧
    ((∀ r : RateLimiter,
        (r.Allow).1 = decide (wrap32 (r.counter + 1) ≤ r.capacity) ∧
        ((r.Allow).2).counter = wrap32 (r.counter + 1)) ∧
      (((2 : Nat) : Int) ≤ 3 → nthAllowResult 3 2 = true) ∧
      (3 < ((2 : Nat) : Int) → ((2 : Nat) : Int) < 2147483648 →
        nthAllowResult 3 2 = false)) ∧
    nthAllowResult 3 2 = true ∧ nthAllowResult 3 4 = false :=
  ⟨⟨by norm_num, by norm_num, by norm_num⟩,
    rateLimiter_capacity_enforced 3 2 (by norm_num) (by norm_num) (by norm_num),
    by decide, by decide⟩

/-- C2 counterexample: the claim "the k-th request receives exactly the value
k on its response channel, for every k ≥ 1" is false as stated.  The `Run`
loop counter is a 64-bit `int`: on an event sequence of 2^63 serviced
requests the 2^63-th serviced request receives -2^63 (the wrapped counter),
not 2^63. -/
theorem numberIterator_wraparound_counterexample :
    ((Run (List.replicate 9223372036854775808 NIEvent.request)).1)[9223372036854775808 - 1]? =
      some (-9223372036854775808) ∧
    (-9223372036854775808 : Int) ≠ (9223372036854775808 : Int) := by
  constructor
  · rw [Run_nth_response (List.replicate 9223372036854775808 NIEvent.request)
      9223372036854775808 (by norm_num) (by rw [served_replicate])]
    norm_num [wrap64]
  · norm_num

/-- C2 (amended): the toy number iterator produces consecutive integers
starting at 1: on every sequence of resolved select events, the k-th request
serviced by the `Run` loop receives exactly the value k on its response
channel, for every k with 1 ≤ k < 2^63 (until the 64-bit counter overflows),
and exactly one response is sent per serviced request, so the response
sequence is strictly increasing with no gaps. -/
theorem numberIterator_consecutive (evs : List NIEvent) (k : Nat)
    (hk : 1 ≤ k) (hs : k ≤ served evs) (hbound : (k : Int) < 9223372036854775808) :
    ((Run evs).1)[k - 1]? = some (k : Int) ∧ (Run evs).1.length = served evs := by
  constructor
  · rw [Run_nth_response evs k hk hs, wrap64_eq_self (k : Int) (by omega) hbound]
  · rw [Run, RunAux_responses]
    simp

theorem numberIterator_consecutive_witness :
    ((1 : Nat) ≤ 2 ∧ 2 ≤ served [NIEvent.request, NIEvent.request, NIEvent.ctxDone] ∧
      ((2 : Nat) : Int) < 9223372036854775808) ∧
    (((Run [NIEvent.request, NIEvent.request, NIEvent.ctxDone]).1)[2 - 1]? =
        some ((2 : Nat) : Int) ∧
      (Run [NIEvent.request, NIEvent.request, NIEvent.ctxDone]).1.length =
        served [NIEvent.request, NIEvent.request, NIEvent.ctxDone]) ∧
    Run [NIEvent.request, NIEvent.request, NIEvent.ctxDone] = ([1, 2], 2, true) :=
  ⟨⟨by norm_num, by decide, by norm_num⟩,
    numberIterator_consecutive [NIEvent.request, NIEvent.request, NIEvent.ctxDone] 2
      (by norm_num) (by decide) (by norm_num),
    by decide⟩

/-- C3 counterexample: the claim "once the counter exceeds the capacity,
every subsequent call to Allow returns false forever" is false as stated.
With capacity 0 the very first call already exceeds the capacity and returns
false, yet the 2147483648-th (2^31-th) sequential call returns true again,
because the int32 counter wraps to -2^31 without ever being reset. -/
theorem rateLimiter_never_refilled_counterexample :
    nthAllowResult 0 1 = false ∧ nthAllowResult 0 2147483648 = true := by
  constructor
  · decide
  · rw [nthAllowResult_eq 0 2147483648 (by norm_num)]
    decide

/-- C3 (amended): no code path ever starts `bucketRefiller`: under every
sequence of `Allow`/`Close` operations on a limiter created by
`NewRateLimiter`, the refiller goroutine is never running, and the counter is
never reset — it always equals the wrapped count of `Allow` calls made so
far; hence once the counter exceeds the capacity, every subsequent call to
`Allow` returns false until the int32 counter overflows (calls c < k < 2^31),
waiting never restoring permits. -/
theorem bucketRefiller_never_started (c : Int) (ops : List RLOp) (k : Nat)
    (hc0 : 0 ≤ c) (hc : c < 2147483648) (hck : c < (k : Int))
    (hk32 : (k : Int) < 2147483648) :
    (applyOps (NewRateLimiter c) ops).refillerRunning = false ∧
    (applyOps (NewRateLimiter c) ops).counter = wrap32 (countAllows ops) ∧
    nthAllowResult c k = false := by
  refine ⟨?_, ?_, ?_⟩
  · rw [applyOps_refillerRunning]
    rfl
  · rw [applyOps_counter 0 _ _ (counter_NewRateLimiter c)]
    norm_num
  · have hk : 1 ≤ k := by omega
    rw [nthAllowResult_eq c k hk, wrap32_eq_self (k : Int) (by omega) (by omega)]
    exact decide_eq_false (by omega)

theorem bucketRefiller_never_started_witness :
    ((0 : Int) ≤ 3 ∧ (3 : Int) < 2147483648 ∧ (3 : Int) < ((5 : Nat) : Int) ∧
      ((5 : Nat) : Int) < 2147483648) ∧
    ((applyOps (NewRateLimiter 3) [RLOp.allow, RLOp.close, RLOp.allow]).refillerRunning =
        false ∧
      (applyOps (NewRateLimiter 3) [RLOp.allow, RLOp.close, RLOp.allow]).counter =
        wrap32 (countAllows [RLOp.allow, RLOp.close, RLOp.allow]) ∧
      nthAllowResult 3 5 = false) ∧
    (applyOps (NewRateLimiter 3) [RLOp.allow, RLOp.close, RLOp.allow]).counter = 2 :=
  ⟨⟨by norm_num, by norm_num, by norm_num, by norm_num⟩,
    bucketRefiller_never_started 3 [RLOp.allow, RLOp.close, RLOp.allow] 5
      (by norm_num) (by norm_num) (by norm_num) (by norm_num),
    by decide⟩

/-- C4: `NumberIterator.Next`, as implemented, returns `(0, nil)` for every
receiver and every context argument — including an already-canceled context —
and performs no channel operation, so it never communicates with the `Run`
goroutine, never returns `context.Canceled`, and never returns a positive
number (its first component is always exactly 0 and its error component is
always `nil`). -/
theorem next_returns_zero_nil :
    ∀ (ni : NumberIterator) (ctx : GoContext),
      (ni.Next ctx).1.1 = 0 ∧
      (ni.Next ctx).1.2 = none ∧
      (ni.Next ctx).2 = [] ∧
      (ni.Next { canceled := true }).1 = (0, none) :=
  fun ni ctx => ⟨rfl, rfl, rfl, rfl⟩

/-- C6: cancellation of the `NumberIterator` is honored and final: whenever
the `select` of the `Run` loop resolves to the `ctx.Done()` branch (which is
ready as soon as the context becomes done), the loop returns immediately —
regardless of any later events, no response is sent from that point on and
the counter is never incremented again — and on every event sequence in which
a `ctx.Done()` resolution occurs, the loop has returned. -/
theorem run_honors_cancellation (c : Int) (evs rest : List NIEvent)
    (h : NIEvent.ctxDone ∈ evs) :
    RunAux c (NIEvent.ctxDone :: rest) = ([], c, true) ∧
    (RunAux c evs).2.2 = true :=
  ⟨rfl, RunAux_returned_of_mem c evs h⟩

theorem run_honors_cancellation_witness :
    NIEvent.ctxDone ∈ [NIEvent.request, NIEvent.ctxDone] ∧
    (RunAux 5 (NIEvent.ctxDone :: [NIEvent.request]) = ([], 5, true) ∧
      (RunAux 5 [NIEvent.request, NIEvent.ctxDone]).2.2 = true) ∧
    RunAux 5 [NIEvent.request, NIEvent.ctxDone] = ([6], 6, true) :=
  ⟨by decide,
    run_honors_cancellation 5 [NIEvent.request, NIEvent.ctxDone] [NIEvent.request]
      (by decide),
    by decide⟩

/-- C7: `RateLimiter.Close` is irreversible and there is no recovery: `Close`
cancels the limiter's context; once the context is canceled it stays canceled
under every further sequence of `RateLimiter` operations; a running
`bucketRefiller` whose `select` resolves to the `ctx.Done()` branch returns
with the counter untouched and never stores 0 again; and no operation ever
starts (or restarts) the refiller goroutine. -/
theorem close_irreversible (r : RateLimiter) (ops : List RLOp) (c : Int)
    (evs : List RefEvent) (h : r.canceled = true) :
    (RateLimiter.Close r).canceled = true ∧
    (applyOps r ops).canceled = true ∧
    bucketRefiller c (RefEvent.ctxDone :: evs) = (c, true) ∧
    (applyOps r ops).refillerRunning = r.refillerRunning :=
  ⟨rfl, applyOps_canceled_of r ops h, rfl, applyOps_refillerRunning r ops⟩

theorem close_irreversible_witness :
    (RateLimiter.Close (NewRateLimiter 3)).canceled = true ∧
    ((RateLimiter.Close (RateLimiter.Close (NewRateLimiter 3))).canceled = true ∧
      (applyOps (RateLimiter.Close (NewRateLimiter 3)) [RLOp.allow, RLOp.close]).canceled =
        true ∧
      bucketRefiller 7 (RefEvent.ctxDone :: [RefEvent.tick]) = (7, true) ∧
      (applyOps (RateLimiter.Close (NewRateLimiter 3))
          [RLOp.allow, RLOp.close]).refillerRunning =
        (RateLimiter.Close (NewRateLimiter 3)).refillerRunning) ∧
    bucketRefiller 7 [RefEvent.tick, RefEvent.ctxDone] = (0, true) :=
  ⟨by decide,
    close_irreversible (RateLimiter.Close (NewRateLimiter 3)) [RLOp.allow, RLOp.close] 7
      [RefEvent.tick] (by decide),
    by decide⟩

/-- C10: the claim that in `TestForkJoin` the child goroutine closes the
`done` channel so the join completes before the timeout is contradicted by
the code: the child goroutine body only logs and contains no `close(done)`
statement, so the receive on `done` never completes and the test's own
1-millisecond timeout branch fires, reaching `t.Errorf`.  This evaluates the
test at its failing execution. -/
theorem forkJoin_done_never_closed :
    closesDone forkJoinChild = false ∧ TestForkJoin = SelectOutcome.timedOut := by
  decide

end concurrency

/-- C5: `Divide` performs unguarded integer division: for every `a` and every
`b ≠ 0` in the `int` range (with the single two's complement overflow pair
`math.MinInt64 / -1` set aside), both copies of `Divide` return the truncated
quotient `a / b` paired with a `nil` error; for every `a`, `Divide(a, 0)`
faults with the division-by-zero runtime panic instead of returning an error;
and on no input does `Divide` return a non-nil error. -/
theorem divide_unguarded (a b : Int)
    (hb : b ≠ 0)
    (ha1 : -9223372036854775808 ≤ a) (ha2 : a < 9223372036854775808)
    (hb1 : -9223372036854775808 ≤ b) (hb2 : b < 9223372036854775808)
    (hmin : ¬(a = -9223372036854775808 ∧ b = -1)) :
    main.Divide a b = Exec.ok (Int.tdiv a b, none) ∧
    errorhandling.Divide a b = Exec.ok (Int.tdiv a b, none) ∧
    (∀ x : Int, main.Divide x 0 =
      Exec.panicked ("runtime error: integer divide by zero")) ∧
    (∀ x y : Int, ∀ q : Int, ∀ e : Option GoError,
      main.Divide x y = Exec.ok (q, e) → e = none) := by
  have hrange : -9223372036854775808 ≤ Int.tdiv a b ∧
      Int.tdiv a b < 9223372036854775808 := by
    have habs : (Int.tdiv a b).natAbs = a.natAbs / b.natAbs := Int.natAbs_tdiv a b
    rcases eq_or_ne a (-9223372036854775808) with ha | ha
    · rcases eq_or_ne b 1 with hb' | hb'
      · subst hb'
        rw [Int.tdiv_one]
        omega
      · have hbge : 2 ≤ b.natAbs := by omega
        have hdivle : a.natAbs / b.natAbs ≤ a.natAbs / 2 :=
          Nat.div_le_div_left hbge (by norm_num)
        have hale : a.natAbs = 9223372036854775808 := by omega
        omega
    · have hle : a.natAbs / b.natAbs ≤ a.natAbs := Nat.div_le_self _ _
      omega
  have hwrap : wrap64 (Int.tdiv a b) = Int.tdiv a b :=
    wrap64_eq_self _ hrange.1 hrange.2
  refine ⟨?_, ?_, ?_, ?_⟩
  · rw [main.Divide, if_neg hb, hwrap]
  · rw [errorhandling.Divide, if_neg hb, hwrap]
  · intro x
    rw [main.Divide, if_pos rfl]
  · intro x y q e hxy
    rw [main.Divide] at hxy
    by_cases hy : y = 0
    · rw [if_pos hy] at hxy
      cases hxy
    · rw [if_neg hy] at hxy
      cases hxy
      rfl

theorem divide_unguarded_witness :
    ((2 : Int) ≠ 0 ∧ -9223372036854775808 ≤ (10 : Int) ∧
      (10 : Int) < 9223372036854775808 ∧ -9223372036854775808 ≤ (2 : Int) ∧
      (2 : Int) < 9223372036854775808 ∧
      ¬((10 : Int) = -9223372036854775808 ∧ (2 : Int) = -1)) ∧
    (main.Divide 10 2 = Exec.ok (Int.tdiv 10 2, none) ∧
      errorhandling.Divide 10 2 = Exec.ok (Int.tdiv 10 2, none) ∧
      (∀ x : Int, main.Divide x 0 =
        Exec.panicked ("runtime error: integer divide by zero")) ∧
      (∀ x y : Int, ∀ q : Int, ∀ e : Option GoError,
        main.Divide x y = Exec.ok (q, e) → e = none)) ∧
    main.Divide 10 2 = Exec.ok (5, none) :=
  ⟨⟨by norm_num, by norm_num, by norm_num, by norm_num, by norm_num, by norm_num⟩,
    divide_unguarded 10 2 (by norm_num) (by norm_num) (by norm_num) (by norm_num)
      (by norm_num) (by norm_num),
    by decide⟩

/-- C8: the duplicated copies of the error-handling exercise define
extensionally equal functions: on every input, `Divide`,
`ValidatePasswordLen`, and `ValidateField` of `src/main_test.go`
(`package main`) return the same results as the functions of the same names
in `src/unnamed/part_001` (`package errorhandling`); both
`ValidatePasswordLen` copies return `nil` on every input, and both
`ValidateField` copies return an error exactly when `len(value) > 10`. -/
theorem duplicated_copies_equal :
    (∀ a b : Int, main.Divide a b = errorhandling.Divide a b) ∧
    (∀ p : GoString, main.ValidatePasswordLen p = errorhandling.ValidatePasswordLen p) ∧
    (∀ f v : GoString, main.ValidateField f v = errorhandling.ValidateField f v) ∧
    (∀ p : GoString, main.ValidatePasswordLen p = none) ∧
    (∀ f v : GoString, (main.ValidateField f v).isSome = decide (golen v > 10)) ∧
    (∀ f v : GoString, (errorhandling.ValidateField f v).isSome = decide (golen v > 10)) := by
  refine ⟨fun a b => rfl, fun p => rfl, fun f v => rfl, fun p => rfl, ?_, ?_⟩
  · intro f v
    rw [main.ValidateField]
    by_cases h : golen v > 10
    · rw [if_pos h]
      simp [h]
    · rw [if_neg h]
      simp [h]
  · intro f v
    rw [errorhandling.ValidateField]
    by_cases h : golen v > 10
    · rw [if_pos h]
      simp [h]
    · rw [if_neg h]
      simp [h]

/-- C9: `ValidatePasswordLen` is shipped partially implemented: both copies
return `nil` for every password string — in particular for every string
shorter than 8 characters — so the announced short-password failure case is
unreachable. -/
theorem validatePasswordLen_never_errors :
    (∀ p : GoString, main.ValidatePasswordLen p = none) ∧
    (∀ p : GoString, errorhandling.ValidatePasswordLen p = none) ∧
    main.ValidatePasswordLen [0x73, 0x68, 0x6f, 0x72, 0x74] = none :=
  ⟨fun p => rfl, fun p => rfl, rfl⟩

end GoWorkshops
